import Mathlib

/-!
Shallow embedding of the multi-agent routing and streaming-execution core of
the repository: the keyword router (`multi_agent_project/utils/query_router.py`)
and the specialist agent executors (`examples/travel/agent_executor.py`,
`multi_agent_project/agents/coding_agent.py`).

The executors are modelled as functions from the request context (query text,
message presence) and the behaviour of the underlying agent stream (its yielded
items and how it terminates) to the list of events enqueued on the task's
event queue, the exception raised (if any), and the accumulated response text.
-/

/-- Task states used by the executors (the subset of a2a `TaskState` the code
touches, plus the remaining lifecycle states named in the design). -/
inductive TaskState where
  | submitted
  | working
  | completed
  | failed
  | canceled
deriving DecidableEq

/-- An event enqueued on a task's event queue: either a
`TaskArtifactUpdateEvent` carrying a named text artifact, or a
`TaskStatusUpdateEvent` carrying a state and the `final` flag. -/
inductive Event where
  | artifact (name : String) (text : String)
  | status (state : TaskState) (final : Bool)
deriving DecidableEq

/-- The three specialist executors held by `QueryRouter.__init__`. -/
inductive Specialist where
  | travel
  | research
  | coding
deriving DecidableEq

/-- ASCII lower-casing of one character, mirroring what Python's `str.lower`
does on the ASCII range (all keywords and example queries in the code are
ASCII); it agrees with `Char.toLower`. -/
def charLower (c : Char) : Char :=
  if 65 ≤ c.toNat ∧ c.toNat ≤ 90 then Char.ofNat (c.toNat + 32) else c

/-- Lower-casing of a string (`query.lower()` in `QueryRouter.execute`). -/
def strLower (s : String) : String := ⟨s.data.map charLower⟩

/-- `needle` is a prefix of `hay`, on character lists. -/
def startsWithChars : List Char → List Char → Bool
  | [], _ => true
  | _ :: _, [] => false
  | a :: as, b :: bs => a == b && startsWithChars as bs

/-- `needle` occurs contiguously somewhere in `hay`, on character lists. -/
def containsChars (needle : List Char) : List Char → Bool
  | [] => needle.isEmpty
  | c :: rest => startsWithChars needle (c :: rest) || containsChars needle rest

/-- Python's substring test `needle in hay`. -/
def strContains (hay needle : String) : Bool := containsChars needle.data hay.data

/-- The `keyword_map` built in `QueryRouter.__init__`, in insertion order
(Python dict iteration order is insertion order). -/
def keywordMap : List (String × Specialist) :=
  [("travel", Specialist.travel), ("trip", Specialist.travel),
   ("itinerary", Specialist.travel), ("destination", Specialist.travel),
   ("vacation", Specialist.travel),
   ("research", Specialist.research), ("find", Specialist.research),
   ("information", Specialist.research), ("data", Specialist.research),
   ("analyze", Specialist.research),
   ("code", Specialist.coding), ("program", Specialist.coding),
   ("script", Specialist.coding), ("develop", Specialist.coding),
   ("python", Specialist.coding)]

/-- The routing loop of `QueryRouter.execute`: lower-case the query, pick the
executor of the first keyword of `keyword_map` that occurs in it, and default
to the travel executor when no keyword matches. -/
def selectSpecialist (query : String) : Specialist :=
  match keywordMap.find? (fun p => strContains (strLower query) p.1) with
  | some p => p.2
  | none => Specialist.travel

/-- One event yielded by an agent stream: the dict
`{'content': ..., 'done': ...}` produced by `CodingAgent.stream` and
`TravelPlannerAgent.stream`. -/
structure StreamItem where
  content : String
  done : Bool
deriving DecidableEq

/-- How an agent stream behaves after its listed yields: it either terminates
normally or raises an exception with the given message. -/
inductive StreamTail where
  | finished
  | raises (msg : String)
deriving DecidableEq

/-- The `async for` loop of the specialist executors: an item with empty
content that is not done is skipped (`continue`); otherwise its content is
appended to `full_response`, a `current_result` artifact carrying the fragment
is enqueued, and the loop breaks when the item is done. Returns the enqueued
events, the accumulated `full_response`, and the exception surfaced by the
stream (if the loop consumed the stream to its raising end). -/
def streamLoop : List StreamItem → StreamTail → String → List Event × String × Option String
  | [], StreamTail.finished, acc => ([], acc, none)
  | [], StreamTail.raises msg, acc => ([], acc, some msg)
  | it :: rest, tail, acc =>
    if it.content = "" ∧ it.done = false then
      streamLoop rest tail acc
    else
      let acc1 := acc ++ it.content
      let ev := Event.artifact "current_result" it.content
      if it.done then ([ev], acc1, none)
      else
        let r := streamLoop rest tail acc1
        (ev :: r.1, r.2.1, r.2.2)

/-- Result of one `execute` call of a specialist executor: the events it
enqueued on the task's event queue, the exception it raised (if any), and its
final `full_response`. -/
structure ExecResult where
  events : List Event
  raised : Option String
  output : String
deriving DecidableEq

/-- `TravelPlannerAgentExecutor.execute` and `CodingAgentExecutor.execute`
(their bodies are identical up to logging): with no query or no message the
call raises without enqueueing anything; otherwise it drives the agent stream,
then on normal loop exit enqueues a consolidated `final_result` artifact when
`full_response` is non-empty followed by a final `completed` status, and on a
stream exception enqueues an `error` artifact and a final `failed` status and
re-raises. -/
def specialistExecute (query : String) (hasMessage : Bool)
    (items : List StreamItem) (tail : StreamTail) : ExecResult :=
  if query = "" ∨ hasMessage = false then
    ⟨[], some "No message or query provided", ""⟩
  else
    match streamLoop items tail "" with
    | (evs, out, none) =>
      ⟨evs ++ (if out = "" then [] else [Event.artifact "final_result" out])
           ++ [Event.status TaskState.completed true], none, out⟩
    | (evs, out, some msg) =>
      ⟨evs ++ [Event.artifact "error" ("An error occurred: " ++ msg),
               Event.status TaskState.failed true], some msg, out⟩

/-- Result of one `QueryRouter.execute` call: the events on the task's event
queue, the exception propagated to the caller (if any), and which specialist
executor was invoked (if any). -/
structure RouterResult where
  events : List Event
  raised : Option String
  invoked : Option Specialist
deriving DecidableEq

/-- `QueryRouter.execute`: with no query or no message it enqueues an `error`
artifact and a final `failed` status and returns; otherwise it selects a
specialist by keyword, delegates to its `execute` (whose events go to the same
queue), and if that call raises it enqueues a further `error` artifact and a
further final `failed` status and re-raises. `specRun` gives the behaviour of
each specialist's `execute` on the current context. -/
def queryRouterExecute (query : String) (hasMessage : Bool)
    (specRun : Specialist → ExecResult) : RouterResult :=
  if query = "" ∨ hasMessage = false then
    ⟨[Event.artifact "error" "No valid query or message provided",
      Event.status TaskState.failed true], none, none⟩
  else
    match specRun (selectSpecialist query) with
    | ⟨evs, none, _⟩ => ⟨evs, none, some (selectSpecialist query)⟩
    | ⟨evs, some msg, _⟩ =>
      ⟨evs ++ [Event.artifact "error" ("An error occurred: " ++ msg),
               Event.status TaskState.failed true], some msg,
       some (selectSpecialist query)⟩

/-- `QueryRouter.cancel` and `TravelPlannerAgentExecutor.cancel` (identical
bodies): enqueue nothing and raise `Exception('Cancel not supported')`.
Modelled as the pair (events enqueued, exception raised). -/
def cancelOperation : List Event × Option String :=
  ([], some "Cancel not supported")

/-- Whether an event is a terminal status update (`final = true`). -/
def isFinalStatus : Event → Bool
  | Event.status _ true => true
  | _ => false

/-- The in-order concatenation of the fragments an executor consumes from a
stream: contents of the items up to and including the first `done` item. -/
def fragConcat : List StreamItem → String
  | [] => ""
  | it :: rest => if it.done then it.content else it.content ++ fragConcat rest

/-- The keyword set of each specialist, read off `keyword_map`. -/
def specialistKeywords : Specialist → List String
  | Specialist.travel => ["travel", "trip", "itinerary", "destination", "vacation"]
  | Specialist.research => ["research", "find", "information", "data", "analyze"]
  | Specialist.coding => ["code", "program", "script", "develop", "python"]

/-- Modelled from the spec (the routing scheme the design describes, absent
from the code): `matchCount` of a specialist against a request text is the
number of its keywords occurring as substrings of the lower-cased text. -/
def specMatchCount (s : Specialist) (query : String) : Nat :=
  ((specialistKeywords s).filter (fun k => strContains (strLower query) k)).length

/-- The loop of the specialist executors enqueues only artifact events; in
particular no terminal status update is emitted from inside the loop. -/
theorem streamLoop_no_status :
    ∀ (items : List StreamItem) (tail : StreamTail) (acc : String),
      ∀ e ∈ (streamLoop items tail acc).1, isFinalStatus e = false
  | [], StreamTail.finished, _ => by simp [streamLoop]
  | [], StreamTail.raises _, _ => by simp [streamLoop]
  | it :: rest, tail, acc => by
    by_cases h : it.content = "" ∧ it.done = false
    · simpa [streamLoop, h] using streamLoop_no_status rest tail acc
    · by_cases hd : it.done
      · simp [streamLoop, h, hd, isFinalStatus]
      · have hc : it.content ≠ "" := fun hc => h ⟨hc, by simpa using hd⟩
        intro e he
        simp [streamLoop, hc, hd] at he
        rcases he with he | he
        · simp [he, isFinalStatus]
        · exact streamLoop_no_status rest tail (acc ++ it.content) e he

/-- The accumulated response of the executor loop is the starting accumulator
followed by the in-order concatenation of the consumed fragments. -/
theorem streamLoop_output :
    ∀ (items : List StreamItem) (tail : StreamTail) (acc : String),
      (streamLoop items tail acc).2.1 = acc ++ fragConcat items
  | [], StreamTail.finished, acc => by simp [streamLoop, fragConcat]
  | [], StreamTail.raises _, acc => by simp [streamLoop, fragConcat]
  | it :: rest, tail, acc => by
    by_cases h : it.content = "" ∧ it.done = false
    · simp [streamLoop, h, fragConcat, h.1, h.2, streamLoop_output rest tail acc,
        String.empty_append]
    · by_cases hd : it.done
      · simp [streamLoop, h, hd, fragConcat]
      · have hc : it.content ≠ "" := fun hc => h ⟨hc, by simpa using hd⟩
        simp [streamLoop, hc, hd, fragConcat,
          streamLoop_output rest tail (acc ++ it.content), String.append_assoc]

/-- If the entry at index i satisfies the predicate and no earlier entry does,
then find? returns that entry. -/
theorem find_first_at_index {α : Type} (p : α → Bool) :
    ∀ (l : List α) (i : Nat) (hi : i < l.length),
      p (l.get ⟨i, hi⟩) = true →
      (∀ j (hj : j < i), p (l.get ⟨j, Nat.lt_trans hj hi⟩) = false) →
      l.find? p = some (l.get ⟨i, hi⟩)
  | a :: _, 0, _, hp, _ => List.find?_cons_of_pos _ hp
  | a :: as, i + 1, hi, hp, hb => by
    have h0 : p a = false := hb 0 (Nat.succ_pos i)
    rw [List.find?_cons_of_neg _ (by simp [h0])]
    exact find_first_at_index p as i (Nat.lt_of_succ_lt_succ hi) hp
      (fun j hj => hb (j + 1) (Nat.succ_lt_succ hj))

/-- ASCII lower-casing is idempotent (a lowered character is outside the
upper-case range). -/
theorem charLower_idem (c : Char) : charLower (charLower c) = charLower c := by
  by_cases h : 65 ≤ c.toNat ∧ c.toNat ≤ 90
  · obtain ⟨h1, h2⟩ := h
    obtain ⟨n, hn1, hn2, hc⟩ : ∃ n, 65 ≤ n ∧ n ≤ 90 ∧ c = Char.ofNat n :=
      ⟨c.toNat, h1, h2, (Char.ofNat_toNat c).symm⟩
    subst hc
    interval_cases n <;> decide
  · simp [charLower, h]

/-- String lower-casing is idempotent. -/
theorem strLower_idem (s : String) : strLower (strLower s) = strLower s := by
  have hfun : charLower ∘ charLower = charLower := funext charLower_idem
  show String.mk ((s.data.map charLower).map charLower) = String.mk (s.data.map charLower)
  rw [List.map_map, hfun]

/-- Claim C1 counterexample: when QueryRouter.execute delegates to a
specialist whose stream raises, the specialist enqueues an error artifact and
a final failed status and re-raises, and the router then enqueues a second
error artifact and a second final failed status on the same queue — the
call's event queue carries two final StatusUpdate events, not exactly one,
and events follow the first final event. -/
theorem c1_counterexample :
    ((queryRouterExecute "code" true
        (fun _ => specialistExecute "code" true [] (StreamTail.raises "boom"))).events.filter
          isFinalStatus).length = 2 ∧
    ((queryRouterExecute "code" true
        (fun _ => specialistExecute "code" true [] (StreamTail.raises "boom"))).events.filter
          isFinalStatus).length ≠ 1 := by decide

/-- Claim C1 (amended): every specialist executor execute call with a
non-empty query and a present message publishes exactly one final StatusUpdate
event, and it is the last event published: the events are a final-free prefix
followed by one status event with final = true. -/
theorem c1_single_final (q : String) (items : List StreamItem) (tail : StreamTail)
    (hq : q ≠ "") :
    ∃ pre st, (specialistExecute q true items tail).events = pre ++ [Event.status st true] ∧
      ∀ e ∈ pre, isFinalStatus e = false := by
  have hns : ∀ e ∈ (streamLoop items tail "").1, isFinalStatus e = false :=
    streamLoop_no_status items tail ""
  cases h : streamLoop items tail "" with
  | mk evs rest =>
    rw [h] at hns
    obtain ⟨out, err⟩ := rest
    cases err with
    | none =>
      by_cases ho : out = ""
      · refine ⟨evs, TaskState.completed, ?_, hns⟩
        simp [specialistExecute, hq, h, ho]
      · refine ⟨evs ++ [Event.artifact "final_result" out], TaskState.completed, ?_, ?_⟩
        · simp [specialistExecute, hq, h, ho]
        · intro e he
          rcases List.mem_append.1 he with he | he
          · exact hns e he
          · simp at he
            simp [he, isFinalStatus]
    | some msg =>
      refine ⟨evs ++ [Event.artifact "error" ("An error occurred: " ++ msg)],
        TaskState.failed, ?_, ?_⟩
      · simp [specialistExecute, hq, h]
      · intro e he
        rcases List.mem_append.1 he with he | he
        · exact hns e he
        · simp at he
          simp [he, isFinalStatus]

/-- Witness for c1_single_final at a concrete input. -/
theorem c1_single_final_witness :
    ∃ pre st,
      (specialistExecute "x" true [⟨"a", false⟩] StreamTail.finished).events =
        pre ++ [Event.status st true] ∧
      ∀ e ∈ pre, isFinalStatus e = false :=
  c1_single_final "x" [⟨"a", false⟩] StreamTail.finished (by decide)

/-- Claim C2 counterexample: for a stream that yields the fragments a, b, c
and then completes, the queue does not consist of exactly the three
current_result artifacts followed by the completed status — a consolidated
final_result artifact carrying "abc" is enqueued between the last fragment
and the terminal status. -/
theorem c2_counterexample :
    (specialistExecute "q" true [⟨"a", false⟩, ⟨"b", false⟩, ⟨"c", false⟩]
        StreamTail.finished).events ≠
      [Event.artifact "current_result" "a", Event.artifact "current_result" "b",
       Event.artifact "current_result" "c",
       Event.status TaskState.completed true] := by decide

/-- Claim C2 (amended): for a stream yielding fragments a, b, c and then
completing, the consumer observes PartialResult(a), PartialResult(b),
PartialResult(c), then a consolidated PartialResult("abc") (the final_result
artifact), then StatusUpdate(completed), in that exact order; the call raises
nothing and accumulates "abc". -/
theorem c2_events :
    specialistExecute "q" true [⟨"a", false⟩, ⟨"b", false⟩, ⟨"c", false⟩]
        StreamTail.finished =
      ⟨[Event.artifact "current_result" "a", Event.artifact "current_result" "b",
        Event.artifact "current_result" "c", Event.artifact "final_result" "abc",
        Event.status TaskState.completed true], none, "abc"⟩ := by decide

/-- Claim C3: routing is total over the fixed registry — for every request
text the router selects one of the three registered specialists and never
fails; a request whose lower-cased text contains some registered keyword is
routed to a specialist one of whose keywords matches, and a request matching
no keyword is routed to the default travel specialist; in particular
"help me plan a trip" routes to travel, "write a program" to coding, and the
keyword-free "hello there" to the default travel. -/
theorem c3_routing_total :
    (∀ q : String,
      (selectSpecialist q = Specialist.travel ∨ selectSpecialist q = Specialist.research ∨
        selectSpecialist q = Specialist.coding) ∧
      ((∃ p ∈ keywordMap, strContains (strLower q) p.1 = true) →
        ∃ k, (k, selectSpecialist q) ∈ keywordMap ∧ strContains (strLower q) k = true) ∧
      ((∀ p ∈ keywordMap, strContains (strLower q) p.1 = false) →
        selectSpecialist q = Specialist.travel)) ∧
    selectSpecialist "help me plan a trip" = Specialist.travel ∧
    selectSpecialist "write a program" = Specialist.coding ∧
    selectSpecialist "hello there" = Specialist.travel := by
  refine ⟨fun q => ⟨?_, ?_, ?_⟩, by decide, by decide, by decide⟩
  · cases h : selectSpecialist q <;> simp
  · rintro ⟨p, hp, hc⟩
    cases h : keywordMap.find? (fun r => strContains (strLower q) r.1) with
    | none =>
      rw [List.find?_eq_none] at h
      exact absurd hc (by simpa using h p hp)
    | some p0 =>
      have hmem : p0 ∈ keywordMap := List.mem_of_find?_eq_some h
      have hsel : selectSpecialist q = p0.2 := by simp [selectSpecialist, h]
      refine ⟨p0.1, ?_, by simpa using List.find?_some h⟩
      rw [hsel]
      simpa using hmem
  · intro hall
    have h : keywordMap.find? (fun r => strContains (strLower q) r.1) = none := by
      rw [List.find?_eq_none]
      intro p hp
      simp [hall p hp]
    simp [selectSpecialist, h]

/-- Witness for c3_routing_total: its matched-request implication applied at
"write a program" (keyword "program" matches), and its no-match implication
applied at "hello there". -/
theorem c3_routing_total_witness :
    (∃ k, (k, selectSpecialist "write a program") ∈ keywordMap ∧
      strContains (strLower "write a program") k = true) ∧
    selectSpecialist "hello there" = Specialist.travel :=
  ⟨(c3_routing_total.1 "write a program").2.1
      ⟨("program", Specialist.coding), by decide, by decide⟩,
    (c3_routing_total.1 "hello there").2.2 (by decide)⟩

/-- Claim C4 counterexample: on the request "travel code program script" both
the travel specialist (matchCount 1) and the coding specialist (matchCount 3)
have matchCount > 0; the code carries no priority field at all (so no
candidate has higher priority), hence the claim requires the candidate with
the highest matchCount, coding — but the router selects travel, whose
matchCount is strictly smaller. -/
theorem c4_counterexample :
    0 < specMatchCount Specialist.travel "travel code program script" ∧
    0 < specMatchCount Specialist.coding "travel code program script" ∧
    specMatchCount (selectSpecialist "travel code program script")
        "travel code program script" <
      specMatchCount Specialist.coding "travel code program script" := by decide

/-- Claim C4 (amended): when several specialists match, the router ignores
match counts (and no priorities exist in the code): it selects the executor
mapped from the first keyword, in keyword_map insertion order (all travel
keywords before all research keywords before all coding keywords), that
occurs in the lower-cased request text. -/
theorem c4_first_match (q : String) (i : Nat) (hi : i < keywordMap.length)
    (hmatch : strContains (strLower q) (keywordMap.get ⟨i, hi⟩).1 = true)
    (hbefore : ∀ j (hj : j < i),
      strContains (strLower q) (keywordMap.get ⟨j, Nat.lt_trans hj hi⟩).1 = false) :
    selectSpecialist q = (keywordMap.get ⟨i, hi⟩).2 := by
  have h := find_first_at_index (fun r => strContains (strLower q) r.1)
    keywordMap i hi hmatch hbefore
  simp [selectSpecialist, h]

/-- Witness for c4_first_match: "write a program" matches keyword_map entry
11 ("program", coding) and none of the ten earlier entries, so the coding
executor is selected. -/
theorem c4_first_match_witness :
    selectSpecialist "write a program" = Specialist.coding := by
  have h := c4_first_match "write a program" 11 (by decide) (by decide)
    (by decide)
  simpa using h

/-- Claim C5: an executor whose stream yields two (non-empty) fragments and
then raises publishes exactly those two PartialResult (current_result)
events, then one ErrorNotice (error artifact) whose text carries the failure
reason verbatim as its suffix, then a final StatusUpdate(failed); the
accumulated output equals the two fragments in order, and the stream is
consumed exactly once (no retry: each fragment yields exactly one event). -/
theorem c5_failure_path (q f1 f2 msg : String) (hq : q ≠ "") (h1 : f1 ≠ "") (h2 : f2 ≠ "") :
    specialistExecute q true [⟨f1, false⟩, ⟨f2, false⟩] (StreamTail.raises msg) =
      ⟨[Event.artifact "current_result" f1, Event.artifact "current_result" f2,
        Event.artifact "error" ("An error occurred: " ++ msg),
        Event.status TaskState.failed true], some msg, f1 ++ f2⟩ := by
  simp [specialistExecute, streamLoop, hq, h1, h2, String.empty_append]

/-- Witness for c5_failure_path at fragments "a", "b" and reason "boom". -/
theorem c5_failure_path_witness :
    specialistExecute "x" true [⟨"a", false⟩, ⟨"b", false⟩] (StreamTail.raises "boom") =
      ⟨[Event.artifact "current_result" "a", Event.artifact "current_result" "b",
        Event.artifact "error" ("An error occurred: " ++ "boom"),
        Event.status TaskState.failed true], some "boom", "a" ++ "b"⟩ :=
  c5_failure_path "x" "a" "b" "boom" (by decide) (by decide) (by decide)

/-- Claim C6 counterexample: an execution that received the non-empty
fragment "a" and then failed reaches its terminal failed status with the
event immediately before the terminal being the error artifact, not a
consolidated PartialResult whose text is the fragment concatenation "a". -/
theorem c6_counterexample :
    (specialistExecute "q" true [⟨"a", false⟩] (StreamTail.raises "boom")).events =
      [Event.artifact "current_result" "a",
       Event.artifact "error" ("An error occurred: " ++ "boom"),
       Event.status TaskState.failed true] ∧
    (specialistExecute "q" true [⟨"a", false⟩] (StreamTail.raises "boom")).events.get? 1 ≠
      some (Event.artifact "final_result" "a") ∧
    (specialistExecute "q" true [⟨"a", false⟩] (StreamTail.raises "boom")).output = "a" := by
  decide

/-- Claim C6 (amended): for every execution that terminates successfully
(no exception) with a non-empty accumulated output, every fragment received
is preserved: the accumulated output is the in-order concatenation of the
consumed fragments, and the event published immediately before the terminal
completed StatusUpdate is a single consolidated final_result artifact whose
text is exactly that accumulated output; on the failure path fragments are
still preserved in the output but the penultimate event is the ErrorNotice. -/
theorem c6_consolidated (q : String) (items : List StreamItem) (tail : StreamTail)
    (hq : q ≠ "")
    (hok : (specialistExecute q true items tail).raised = none)
    (hout : (specialistExecute q true items tail).output ≠ "") :
    (specialistExecute q true items tail).output = fragConcat items ∧
    ∃ pre, (specialistExecute q true items tail).events =
      pre ++ [Event.artifact "final_result" (specialistExecute q true items tail).output,
              Event.status TaskState.completed true] := by
  cases h : streamLoop items tail "" with
  | mk evs rest =>
    obtain ⟨out, err⟩ := rest
    cases err with
    | some msg =>
      rw [show (specialistExecute q true items tail).raised = some msg by
        simp [specialistExecute, hq, h]] at hok
      exact absurd hok (by simp)
    | none =>
      have houtEq : (specialistExecute q true items tail).output = out := by
        simp [specialistExecute, hq, h]
      have hout2 : out ≠ "" := houtEq ▸ hout
      constructor
      · rw [houtEq]
        have ho := streamLoop_output items tail ""
        rw [h] at ho
        simpa [String.empty_append] using ho
      · refine ⟨evs, ?_⟩
        rw [houtEq]
        simp [specialistExecute, hq, h, hout2]

/-- Witness for c6_consolidated: a stream yielding "a" then a done item
carrying "b" accumulates "ab" and ends with the consolidated final_result
artifact followed by the completed status. -/
theorem c6_consolidated_witness :
    (specialistExecute "x" true [⟨"a", false⟩, ⟨"b", true⟩] StreamTail.finished).output =
      fragConcat [⟨"a", false⟩, ⟨"b", true⟩] ∧
    ∃ pre,
      (specialistExecute "x" true [⟨"a", false⟩, ⟨"b", true⟩] StreamTail.finished).events =
        pre ++ [Event.artifact "final_result"
                  (specialistExecute "x" true [⟨"a", false⟩, ⟨"b", true⟩]
                      StreamTail.finished).output,
                Event.status TaskState.completed true] :=
  c6_consolidated "x" [⟨"a", false⟩, ⟨"b", true⟩] StreamTail.finished
    (by decide) (by decide) (by decide)

/-- Claim C7 counterexample: the cancel operation of the router and of the
specialist executors publishes no event at all — in particular no final
canceled StatusUpdate — and raises the exception 'Cancel not supported'. -/
theorem c7_counterexample :
    Event.status TaskState.canceled true ∉ cancelOperation.1 ∧
    cancelOperation.2 = some "Cancel not supported" := by decide

/-- Claim C7 (amended): cancellation is not supported: cancel (of both
QueryRouter and the specialist executors) enqueues no event of any kind and
raises 'Cancel not supported', so a cancellation request never produces a
canceled terminal status. -/
theorem c7_cancel_behavior :
    (∀ e : Event, e ∉ cancelOperation.1) ∧
    cancelOperation.2 = some "Cancel not supported" := by
  exact ⟨fun e => by simp [cancelOperation], rfl⟩

/-- Claim C8 counterexample: when the selected specialist raises,
QueryRouter.execute does not absorb the failure — after enqueueing the error
artifact and the final failed status it re-raises, so the exception
propagates to its caller. -/
theorem c8_counterexample :
    (queryRouterExecute "code" true
        (fun _ => specialistExecute "code" true [] (StreamTail.raises "boom"))).raised =
      some "boom" ∧
    (queryRouterExecute "code" true
        (fun _ => specialistExecute "code" true [] (StreamTail.raises "boom"))).raised ≠
      none := by decide

/-- Claim C8 (amended): when the selected specialist's execute raises,
QueryRouter.execute surfaces the failure on the event stream — after the
specialist's own events it enqueues an error artifact carrying the
human-readable message ("An error occurred: " followed by the reason) and a
final failed status — but it then re-raises the same exception to its
caller instead of returning normally. -/
theorem c8_error_surfaced (q msg : String) (specRun : Specialist → ExecResult)
    (evs : List Event) (out : String) (hq : q ≠ "")
    (hrun : specRun (selectSpecialist q) = ⟨evs, some msg, out⟩) :
    queryRouterExecute q true specRun =
      ⟨evs ++ [Event.artifact "error" ("An error occurred: " ++ msg),
               Event.status TaskState.failed true], some msg,
       some (selectSpecialist q)⟩ := by
  simp [queryRouterExecute, hq, hrun]

/-- Witness for c8_error_surfaced with a failing specialist behaviour. -/
theorem c8_error_surfaced_witness :
    queryRouterExecute "code" true (fun _ => ⟨[], some "boom", ""⟩) =
      ⟨[Event.artifact "error" ("An error occurred: " ++ "boom"),
        Event.status TaskState.failed true], some "boom",
       some Specialist.coding⟩ := by
  have h := c8_error_surfaced "code" "boom" (fun _ => ⟨[], some "boom", ""⟩)
    [] "" (by decide) rfl
  have hsel : selectSpecialist "code" = Specialist.coding := by decide
  rw [hsel] at h
  simpa using h

/-- Claim C9: routing is case-insensitive — selecting on a request text and
on its lower-cased form yields the same specialist, and in particular
"I need HELP with CODING" and "i need help with coding" select the same
specialist. -/
theorem c9_case_insensitive :
    (∀ q : String, selectSpecialist q = selectSpecialist (strLower q)) ∧
    selectSpecialist "I need HELP with CODING" =
      selectSpecialist "i need help with coding" := by
  constructor
  · intro q
    unfold selectSpecialist
    rw [strLower_idem]
  · decide

/-- Claim C10: a QueryRouter.execute call with an empty request text or an
absent message enqueues exactly the error artifact carrying
"No valid query or message provided" followed by one final failed
StatusUpdate, returns without raising, and invokes no specialist executor. -/
theorem c10_invalid_input (q : String) (hm : Bool) (specRun : Specialist → ExecResult)
    (h : q = "" ∨ hm = false) :
    queryRouterExecute q hm specRun =
      ⟨[Event.artifact "error" "No valid query or message provided",
        Event.status TaskState.failed true], none, none⟩ := by
  unfold queryRouterExecute
  rw [if_pos h]

/-- Witness for c10_invalid_input at the empty query. -/
theorem c10_invalid_input_witness :
    queryRouterExecute "" true (fun _ => ⟨[], none, ""⟩) =
      ⟨[Event.artifact "error" "No valid query or message provided",
        Event.status TaskState.failed true], none, none⟩ :=
  c10_invalid_input "" true (fun _ => ⟨[], none, ""⟩) (Or.inl rfl)
